import Mathlib

/-!
Verification development for the gobuster fork (packages `libgobuster` and
`gobusterdir`).  Strings are modelled as `List Char` (Go strings; all inputs
of interest are ASCII, where Go's byte-wise operations coincide with the
rune-wise operations modelled here).  Go `int` is modelled as `Int`.
Stateful code is modelled by explicit state passing; fallible code returns
`Except`.
-/

/-- Convert a Lean string literal to the `List Char` representation used
throughout this development. -/
def str (s : String) : List Char := s.data

/-- Whitespace test used by Go's `strings.TrimSpace` (`unicode.IsSpace`),
restricted to the Latin-1 range. -/
def goIsSpace (c : Char) : Bool :=
  c = ' ' ∨ c = '\t' ∨ c = '\n' ∨ c = '\x0b' ∨ c = '\x0c' ∨ c = '\r' ∨
    c = '\x85' ∨ c = '\xa0'

/-- `strings.TrimSpace`: drop whitespace from both ends. -/
def trimSpace (s : List Char) : List Char :=
  ((s.dropWhile goIsSpace).reverse.dropWhile goIsSpace).reverse

/-- Does `pat` occur in `s` starting at index `i`? -/
def occursAt (s pat : List Char) (i : Nat) : Bool :=
  pat.isPrefixOf (s.drop i)

/-- `strings.Contains`: does `pat` occur anywhere in `s`?  (Every string
contains the empty pattern.) -/
def containsSub (s pat : List Char) : Bool :=
  (List.range (s.length + 1)).any (occursAt s pat)

/-- Fuel-driven core of `replaceAll`; `fuel` bounds the number of steps
(one character or one pattern occurrence is consumed per step). -/
def replaceAllAux (pat rep : List Char) : Nat → List Char → List Char
  | 0, s => s
  | _ + 1, [] => []
  | fuel + 1, c :: rest =>
    if pat.isPrefixOf (c :: rest) then
      rep ++ replaceAllAux pat rep fuel ((c :: rest).drop pat.length)
    else
      c :: replaceAllAux pat rep fuel rest

/-- `strings.ReplaceAll s pat rep`: replace every non-overlapping occurrence
of `pat` in `s` (scanning left to right) by `rep`.  An empty pattern matches
between every pair of characters, as in Go. -/
def replaceAll (s pat rep : List Char) : List Char :=
  if pat = [] then rep ++ s.flatMap (fun c => c :: rep)
  else replaceAllAux pat rep s.length s

/-- `strings.HasSuffix e "/"`, the file/directory scope discriminator used
by `GobusterDir.ResultToString`. -/
def endsWithSlash (s : List Char) : Bool :=
  s.getLast? = some '/'

/-! ### Title extraction

`gobusterdir` uses the regular expression `(?s).*<title>(?P<Title>.*)<\/title>.*`
(note: no `(?i)`, so matching is case-sensitive; `(?s)` makes `.` match every
character).  Under Go's leftmost-first matching with greedy quantifiers, the
leading `.*` selects the **last** `<title>` that still has a `</title>`
after it, and the captured group then extends to the **last** `</title>`.
The submatch is passed through `strings.TrimSpace`. -/

/-- The literal `<title>`. -/
def titleOpen : List Char := str "<title>"

/-- The literal `</title>`. -/
def titleClose : List Char := str "</title>"

/-- Is index `i` a viable start for the capture, that is, does `<title>`
occur at `i` with some `</title>` occurrence at or after `i + 7`? -/
def titleOpenAt (s : List Char) (i : Nat) : Bool :=
  occursAt s titleOpen i &&
    (List.range (s.length + 1)).any (fun j => decide (i + 7 ≤ j) && occursAt s titleClose j)

/-- Start of the capture group and start of the closing tag chosen by the
regex engine (see above), if the pattern matches at all. -/
def extractTitleIdx (s : List Char) : Option (Nat × Nat) :=
  match ((List.range (s.length + 1)).filter (titleOpenAt s)).getLast? with
  | none => none
  | some k =>
    match (((List.range (s.length + 1)).filter
        (fun j => decide (k + 7 ≤ j) && occursAt s titleClose j))).getLast? with
    | none => none
    | some j => some (k + 7, j)

/-- The trimmed submatch of the title regex, or `none` when the regex does
not match (`len(rs) == 0` in the source). -/
def extractTitleOpt (s : List Char) : Option (List Char) :=
  (extractTitleIdx s).map (fun p => trimSpace ((s.drop p.1).take (p.2 - p.1)))

/-- The `cleanTitle…` values of the source: the trimmed submatch, or `""`
when the regex does not match. -/
def extractTitle (s : List Char) : List Char :=
  (extractTitleOpt s).getD []

/-- Case folding for `(?i)` matching (the asset-extension alternation of
`parseWaybackUrls` and the spec's description of title extraction). -/
def lowerEq (a b : Char) : Bool := a.toLower = b.toLower

/-- Case-insensitive prefix test. -/
def ciPref : List Char → List Char → Bool
  | [], _ => true
  | _ :: _, [] => false
  | a :: as, b :: bs => lowerEq a b && ciPref as bs

/-- Case-insensitive occurrence test. -/
def ciOccursAt (s pat : List Char) (i : Nat) : Bool :=
  ciPref pat (s.drop i)

/-- Modelled from the spec: §4.3 step 2 describes title extraction as the
«first `<title>…</title>` match, case-insensitive, multiline»: the leftmost
case-insensitive `<title>` with the nearest case-insensitive `</title>`
after it; `none` when no match exists.  This definition follows the spec's
words and is compared with `extractTitleOpt`, the extraction the source
performs. -/
def specExtractTitle (s : List Char) : Option (List Char) :=
  match (List.range (s.length + 1)).find? (fun i =>
      ciOccursAt s titleOpen i &&
        (List.range (s.length + 1)).any
          (fun j => decide (i + 7 ≤ j) && ciOccursAt s titleClose j)) with
  | none => none
  | some i =>
    match (List.range (s.length + 1)).find?
        (fun j => decide (i + 7 ≤ j) && ciOccursAt s titleClose j) with
    | none => none
    | some j => some (trimSpace ((s.drop (i + 7)).take (j - (i + 7))))

/-! ### Wildcard detector state (`Gobuster` wildcard fields) and `Setup` -/

/-- One transport response as consumed by `Setup`: the status code and the
body (`GetRequest` also returns a length and redirect location, which
`Setup` ignores). -/
structure ProbeResp where
  status : Int
  content : List Char
deriving DecidableEq, Repr

/-- The wildcard-related fields of `Gobuster`, as left by `Setup`.
`WildcardStatusCode` is allocated with `new(int)` (value `0`) and possibly
overwritten, so it is modelled as a plain `Int` defaulting to `0`. -/
structure WildcardState where
  wildcardStatusCode : Int := 0
  isWildcardFileByTitle : Bool := false
  isWildcardDirByTitle : Bool := false
  isWildcardFileByContentLength : Bool := false
  isWildcardDirByContentLength : Bool := false
  wildcardFileTitle : List Char := []
  wildcardDirTitle : List Char := []
  wildcardFileContentLength : Nat := 0
  wildcardDirContentLength : Nat := 0
deriving DecidableEq, Repr

/-- The file-scope calibration block of `GobusterDir.Setup` (`part_001`
lines 31–73): if the two file probes agree on the status, store it and
classify by title, else by stripped content length. -/
def fileCalib (urlF16 urlF8 : List Char) (rF16 rF8 : ProbeResp)
    (s : WildcardState) : WildcardState :=
  let cleanF16 := replaceAll rF16.content urlF16 []
  let cleanF8 := replaceAll rF8.content urlF8 []
  let titleF16 := extractTitle rF16.content
  let titleF8 := extractTitle rF8.content
  if rF16.status = rF8.status then
    let sA := { s with wildcardStatusCode := rF16.status }
    if titleF16 ≠ [] ∧ titleF16 = titleF8 then
      { sA with isWildcardFileByTitle := true, wildcardFileTitle := titleF16 }
    else if cleanF16.length = cleanF8.length then
      { sA with isWildcardFileByContentLength := true,
                wildcardFileContentLength := cleanF16.length }
    else sA
  else s

/-- The directory-scope calibration block of `GobusterDir.Setup`
(`part_001` lines 75–117), run after the file-scope block. -/
def dirCalib (urlD16 urlD8 : List Char) (rD16 rD8 : ProbeResp)
    (s : WildcardState) : WildcardState :=
  let cleanD16 := replaceAll rD16.content urlD16 []
  let cleanD8 := replaceAll rD8.content urlD8 []
  let titleD16 := extractTitle rD16.content
  let titleD8 := extractTitle rD8.content
  if rD16.status = rD8.status then
    let sB := { s with wildcardStatusCode := rD16.status }
    if titleD16 ≠ [] ∧ titleD16 = titleD8 then
      { sB with isWildcardDirByTitle := true, wildcardDirTitle := titleD16 }
    else if cleanD16.length = cleanD8.length then
      { sB with isWildcardDirByContentLength := true,
                wildcardDirContentLength := cleanD16.length }
    else sB
  else s

/-- Pure core of `GobusterDir.Setup`: given the base URL, the four random
probe tokens (the code appends `uuid`-derived tokens of lengths 16, 8,
15+`/`, 7+`/` to the base URL) and the four probe responses, compute the
wildcard state.  `WildcardStatusCode` starts at `new(int)`, i.e. `0`, then
the file-scope block runs, then the directory-scope block.  Mirrors
`part_001` lines 28–119. -/
def setupFromResponses (base tF16 tF8 tD16 tD8 : List Char)
    (rF16 rF8 rD16 rD8 : ProbeResp) : WildcardState :=
  dirCalib (base ++ tD16) (base ++ tD8) rD16 rD8
    (fileCalib (base ++ tF16) (base ++ tF8) rF16 rF8 { wildcardStatusCode := 0 })

/-- `GobusterDir.Setup` with the transport collaborator passed explicitly:
the initial connectivity probe of the base URL and each failing calibration
probe abort with the transport's error, exactly as in the source. -/
def setup (base tF16 tF8 tD16 tD8 : List Char)
    (http : List Char → Except (List Char) ProbeResp) :
    Except (List Char) WildcardState := do
  let _ ← http base
  let rF16 ← http (base ++ tF16)
  let rF8 ← http (base ++ tF8)
  let rD16 ← http (base ++ tD16)
  let rD8 ← http (base ++ tD8)
  pure (setupFromResponses base tF16 tF8 tD16 tD8 rF16 rF8 rD16 rD8)

/-! ### `Result` and false-positive classification -/

/-- `libgobuster.Result`.  `Content` and `RedirectURL` are pointers that
`ResultToString` dereferences unconditionally, so they are modelled as
plain values; `Size` may genuinely be absent in the rendering path. -/
structure Result where
  entity : List Char
  status : Int
  size : Option Int := none
  content : List Char
  isEntityURL : Bool
  redirectURL : List Char := []
deriving DecidableEq, Repr

/-- The `isFalsePositive` computation of `GobusterDir.ResultToString`
(`part_001` lines 170–216): only the by-title or the by-content-length
discriminator of the result's scope can mark a result a false positive,
and only when the status equals the single stored wildcard status code. -/
def classifyFalsePositive (g : WildcardState) (baseURL : List Char)
    (r : Result) : Bool :=
  if r.status = g.wildcardStatusCode then
    if endsWithSlash r.entity then
      if g.isWildcardDirByTitle then
        match extractTitleOpt r.content with
        | some t => t = g.wildcardDirTitle
        | none => false
      else if g.isWildcardDirByContentLength then
        let entity := if r.isEntityURL then r.entity else baseURL ++ r.entity
        (replaceAll r.content entity []).length = g.wildcardDirContentLength
      else false
    else
      if g.isWildcardFileByTitle then
        match extractTitleOpt r.content with
        | some t => t = g.wildcardFileTitle
        | none => false
      else if g.isWildcardFileByContentLength then
        let entity := if r.isEntityURL then r.entity else baseURL ++ r.entity
        (replaceAll r.content entity []).length = g.wildcardFileContentLength
      else false
  else false

/-- Modelled from the spec: §4.3 consumption as claim C2 reads it — the
wildcard status codes agreed by each scope are remembered per scope and a
result is compared against the status of **its own** scope before the
discriminators run.  This definition follows the spec's words and is
compared with `classifyFalsePositive`, what the source does. -/
def specClassifyPerScope (base tF16 tF8 tD16 tD8 : List Char)
    (rF16 rF8 rD16 rD8 : ProbeResp) (baseURL : List Char) (r : Result) : Bool :=
  let g := setupFromResponses base tF16 tF8 tD16 tD8 rF16 rF8 rD16 rD8
  let fileAgreed : Option Int :=
    if rF16.status = rF8.status then some rF16.status else none
  let dirAgreed : Option Int :=
    if rD16.status = rD8.status then some rD16.status else none
  let scopeStatus := if endsWithSlash r.entity then dirAgreed else fileAgreed
  if some r.status = scopeStatus then
    if endsWithSlash r.entity then
      if g.isWildcardDirByTitle then
        match extractTitleOpt r.content with
        | some t => t = g.wildcardDirTitle
        | none => false
      else if g.isWildcardDirByContentLength then
        let entity := if r.isEntityURL then r.entity else baseURL ++ r.entity
        (replaceAll r.content entity []).length = g.wildcardDirContentLength
      else false
    else
      if g.isWildcardFileByTitle then
        match extractTitleOpt r.content with
        | some t => t = g.wildcardFileTitle
        | none => false
      else if g.isWildcardFileByContentLength then
        let entity := if r.isEntityURL then r.entity else baseURL ++ r.entity
        (replaceAll r.content entity []).length = g.wildcardFileContentLength
      else false
  else false

/-! ### URL parsing (`net/url` collaborator)

`url.Parse` is standard-library code, modelled here on the grammar subset
the repository feeds it: an optional fragment is cut at the first `#`, a
`scheme://` prefix (if present) is split off, the authority runs to the
first `/` or `?`, the path to the first `?`, and the rest is the raw query.
The model is total; the `err != nil` branch of `parseWaybackUrls` (which
would store the whole line as an opaque host) is unreachable for it. -/

/-- The prefix of `s` before the first separator, and the remainder after
it (`none` when no separator occurs). -/
def breakAtFirst (p : Char → Bool) (s : List Char) : List Char × Option (List Char) :=
  let pre := s.takeWhile (fun c => ¬ p c)
  match s.drop pre.length with
  | [] => (pre, none)
  | _ :: t => (pre, some t)

/-- Scheme, host, path and raw query of a URL (see section comment). -/
structure URLParts where
  scheme : List Char
  host : List Char
  path : List Char
  query : List Char
deriving DecidableEq, Repr

/-- Model of `url.Parse` restricted to the fields the repository reads. -/
def urlParse (s : List Char) : URLParts :=
  let s1 := (breakAtFirst (fun c => c = '#') s).1
  match (List.range (s1.length + 1)).find? (occursAt s1 (str "://")) with
  | some i =>
    let scheme := s1.take i
    let rest := s1.drop (i + 3)
    let host := rest.takeWhile (fun c => ¬(c = '/' ∨ c = '?'))
    let after := rest.drop host.length
    let pq := breakAtFirst (fun c => c = '?') after
    ⟨scheme, host, pq.1, pq.2.getD []⟩
  | none =>
    let pq := breakAtFirst (fun c => c = '?') s1
    ⟨[], [], pq.1, pq.2.getD []⟩

/-- Split on separators (the key/value pair separators `&` and `;` of
`url.ParseQuery`). -/
def splitSep (isSep : Char → Bool) : List Char → List (List Char)
  | [] => [[]]
  | c :: rest =>
    match splitSep isSep rest with
    | [] => [[]]
    | g :: gs => if isSep c then [] :: g :: gs else (c :: g) :: gs

/-- First-occurrence key deduplication (fuel-driven), modelling that
`url.Values` is a map keyed by the key strings. -/
def dedupKeysAux : Nat → List (List Char) → List (List Char)
  | 0, _ => []
  | _ + 1, [] => []
  | fuel + 1, k :: rest => k :: dedupKeysAux fuel (rest.filter (fun x => ¬(x = k)))

/-- The distinct keys of a raw query string, in first-occurrence order:
`url.ParseQuery` splits pairs on `&`/`;`, skips empty segments, and keys a
map by the part before `=`.  Only the key set and its size are ever
consulted by the repository, so values are not modelled. -/
def queryKeys (q : List Char) : List (List Char) :=
  let ks := ((splitSep (fun c => c = '&' ∨ c = ';') q).filter (fun g => g ≠ [])).map
    (fun g => g.takeWhile (fun c => ¬(c = '=')))
  dedupKeysAux ks.length ks

/-! ### `ResultToString` rendering -/

/-- The fields of `libgobuster.Options` consumed by the functions modelled
in this development. -/
structure Options where
  url : List Char
  verbose : Bool := false
  excludedStatusCodes : List Int := []
  excludeString : List Char := []
  extensions : List (List Char) := []
  blankExtension : Bool := false
deriving DecidableEq, Repr

/-- The clock readings `ResultToString` samples with `time.Now()`. -/
structure TimeStamp where
  year : Nat
  month : Nat
  day : Nat
  hour : Nat
  minute : Nat
  second : Nat
deriving DecidableEq, Repr

/-- Decimal digits of a natural number. -/
def natStr (n : Nat) : List Char := Nat.toDigits 10 n

/-- `fmt` `%d` of a Go `int`. -/
def intStr (i : Int) : List Char :=
  if i < 0 then '-' :: natStr i.natAbs else natStr i.natAbs

/-- `fmt` `%02d`: zero-pad to width 2. -/
def pad0Two (n : Nat) : List Char :=
  let d := natStr n
  if d.length < 2 then '0' :: d else d

/-- `fmt` `%⟨w⟩d`: left-pad with spaces to width `w`. -/
def padLeftSp (w : Nat) (s : List Char) : List Char :=
  List.replicate (w - s.length) ' ' ++ s

/-- `fmt` `%-⟨w⟩s`: right-pad with spaces to width `w`. -/
def padRightSp (w : Nat) (s : List Char) : List Char :=
  s ++ List.replicate (w - s.length) ' '

/-- `GobusterDir.ResultToString` (`part_001` lines 167–326): returns the
display line, the archive line, and the status.  The two `time.Now()`
samples of the source (display and archive lines) are the explicit `t`
argument; `fmt.Fprintf` on a `bytes.Buffer` cannot fail, so the error
result is omitted. -/
def resultToString (g : WildcardState) (opts : Options) (t : TimeStamp)
    (r : Result) : List Char × List Char × Int :=
  let isFP := classifyFalsePositive g opts.url r
  let hasExcludeString :=
    if opts.excludeString ≠ [] then containsSub r.content opts.excludeString
    else false
  let excluded := decide (r.status ∈ opts.excludedStatusCodes)
  let verbosePre : List Char :=
    if opts.verbose then
      if isFP then padRightSp 16 (str "FALSE POSITIVE")
      else if ¬excluded ∧ ¬hasExcludeString then padRightSp 16 (str "FOUND")
      else padRightSp 16 (str "MISSED")
    else []
  let printed := (!excluded && !isFP && !hasExcludeString) || opts.verbose
  let displayBody : List Char :=
    if printed then
      str "[" ++ pad0Two t.hour ++ str ":" ++ pad0Two t.minute ++ str ":" ++
        pad0Two t.second ++ str "]" ++
      padLeftSp 8 (intStr r.status) ++
      padLeftSp 12 (intStr (r.size.getD 0)) ++ str " B" ++
      str "     -     " ++
      (if ¬r.isEntityURL then opts.url else []) ++
      r.entity ++
      (if r.redirectURL ≠ [] then str "  ->  " ++ r.redirectURL else []) ++
      str "\n"
    else []
  let allBufEntity :=
    if r.isEntityURL then
      let u := urlParse r.entity
      replaceAll r.entity (u.scheme ++ str "://" ++ u.host ++ str "/") []
    else r.entity
  let archive : List Char :=
    if printed then
      str "[" ++ natStr t.year ++ str "-" ++ pad0Two t.month ++ str "-" ++
        pad0Two t.day ++ str " " ++ pad0Two t.hour ++ str ":" ++
        pad0Two t.minute ++ str ":" ++ pad0Two t.second ++ str "] - " ++
      str "/" ++ allBufEntity ++ str " - " ++
      intStr r.status ++
      (if r.redirectURL ≠ [] then str "  ->  " ++ r.redirectURL else []) ++
      str "\n"
    else []
  (verbosePre ++ displayBody, archive, r.status)

/-! ### Scheduler: candidate production, workers, counters -/

/-- `libgobuster.BusterTarget`. -/
structure BusterTarget where
  isURL : Bool
  target : List Char
deriving DecidableEq, Repr

/-- One iteration of the `WordScan` loop of `Gobuster.Start` (`result.go`
lines 489–524): the targets enqueued for one raw scanner line. -/
def wordScanLine (exts : List (List Char)) (blankExtension : Bool)
    (line : List Char) : List BusterTarget :=
  let word := trimSpace line
  if ¬((str "#").isPrefixOf word) ∧ 0 < word.length then
    if containsSub word (str "%EXT%") then
      (if blankExtension then
        [{ isURL := false, target := replaceAll word (str ".%EXT%") [] }]
      else []) ++
      exts.map (fun ext =>
        { isURL := false, target := replaceAll word (str "%EXT%") ext })
    else [{ isURL := false, target := word }]
  else []

/-- All targets enqueued by the wordlist scan of `Start`, when no
cancellation occurs: the concatenation of the per-line expansions in
scanner order. -/
def startWordlistTargets (exts : List (List Char)) (blankExtension : Bool) :
    List (List Char) → List BusterTarget
  | [] => []
  | l :: rest =>
    wordScanLine exts blankExtension l ++ startWordlistTargets exts blankExtension rest

/-- The `requestsExpected` computation of `Gobuster.getWordlist`
(`result.go` lines 238–259): non-blank trimmed line count, plus `%EXT%`-word
count times the extension count, minus the `%EXT%`-word count when the
blank-extension option is off. -/
def getWordlistExpected (exts : List (List Char)) (blankExtension : Bool)
    (lines : List (List Char)) : Int :=
  let ws := (lines.map trimSpace).filter (fun w => w ≠ [])
  let lineCount : Int := ws.length
  let extCount : Int := (ws.filter (fun w => containsSub w (str "%EXT%"))).length
  if blankExtension then lineCount + extCount * exts.length
  else lineCount + extCount * exts.length - extCount

/-- Aggregate semantics of `Gobuster.worker` over a candidate sequence
(concurrency collapsed to processing order; no cancellation): a failing
`plugin.Process` forwards its error to the error stream and the loop
continues, a succeeding one forwards every produced result. -/
def workerRun (process : BusterTarget → Except (List Char) (List Result)) :
    List BusterTarget → List Result × List (List Char)
  | [] => ([], [])
  | t :: rest =>
    match process t with
    | .error e =>
      let r := workerRun process rest
      (r.1, e :: r.2)
    | .ok res =>
      let r := workerRun process rest
      (res ++ r.1, r.2)

/-- Top-level shape of `Gobuster.Start`: a failing `plugin.Setup` aborts
the run; otherwise all candidates are worked off and the collected result
and error streams are returned (the streams are closed exactly when the
value is returned). -/
def startRun (setupResult : Except (List Char) Unit)
    (process : BusterTarget → Except (List Char) (List Result))
    (cands : List BusterTarget) :
    Except (List Char) (List Result × List (List Char)) :=
  match setupResult with
  | .error e => .error e
  | .ok _ => .ok (workerRun process cands)

/-- The two mutations of the `requestsIssued` counter: `incrementRequests`
adds one; `DecrementRequests` subtracts one only while the counter is
strictly positive (`result.go` lines 138–151).  The `sync.RWMutex` makes
every interleaving a sequence of these operations. -/
inductive CounterOp where
  | inc
  | dec
deriving DecidableEq, Repr

/-- Apply one counter operation. -/
def applyCounterOp (n : Int) : CounterOp → Int
  | .inc => n + 1
  | .dec => if 0 < n then n - 1 else n

/-! ### Wayback URL dedup engine (`Gobuster.parseWaybackUrls`) -/

/-- The asset-extension alternation of the regex
`(?i)[^/]+\.(jpg|…|swf).*` in `parseWaybackUrls`. -/
def assetExts : List (List Char) :=
  [str "jpg", str "jpeg", str "woff", str "woff2", str "ico", str "css",
   str "eot", str "pdf", str "ttf", str "gif", str "doc", str "docx",
   str "xls", str "xlsx", str "svg", str "csv", str "mp3", str "mp4",
   str "wma", str "ppt", str "png", str "pptx", str "swf"]

/-- Is position `j` a `.` followed (case-insensitively) by one of the
asset extensions? -/
def dotExtAt (s : List Char) (j : Nat) : Bool :=
  (s.get? j = some '.') && assetExts.any (fun e => ciPref e (s.drop (j + 1)))

/-- Can the asset regex `[^/]+\.(…).*` match starting at position `i`?
This needs a non-empty run of non-`/` characters from `i` to some `j`, a
qualifying `.`‑extension at `j`; the trailing `.*` then consumes the rest
of the line (scanner lines contain no newline). -/
def canMatchAt (s : List Char) (i : Nat) : Bool :=
  (List.range (s.length + 1)).any (fun j =>
    decide (i < j) && ((s.drop i).take (j - i)).all (fun c => ¬(c = '/')) &&
      dotExtAt s j)

/-- First index at or after `i` satisfying `p`, scanning `fuel` indices. -/
def findFrom (p : Nat → Bool) : Nat → Nat → Option Nat
  | _, 0 => none
  | i, fuel + 1 => if p i then some i else findFrom p (i + 1) fuel

/-- Start of the leftmost asset-regex match in `s`, if any. -/
def firstMatchIdx (s : List Char) : Option Nat :=
  findFrom (canMatchAt s) 0 s.length

/-- `rgx.ReplaceAllString(s, "")` for the asset regex: the leftmost match
extends to the end of the line, so replacing all matches by the empty
string keeps exactly the prefix before the leftmost match. -/
def stripAsset (s : List Char) : List Char :=
  match firstMatchIdx s with
  | none => s
  | some i => s.take i

/-- `libgobuster.ParsedURL` (with `Query` reduced to its key set, the only
part the code consults). -/
structure ParsedURL where
  host : List Char
  path : List Char
  query : List (List Char)
  url : List Char
deriving DecidableEq, Repr

/-- Parse one corpus line into a `ParsedURL` (`parseWaybackUrls` lines
336–362): host and query from `url.Parse`, asset-stripped path, and the
asset-stripped full line as the canonical URL. -/
def parseClean (line : List Char) : ParsedURL :=
  let u := urlParse line
  { host := u.host
    path := stripAsset u.path
    query := queryKeys u.query
    url := stripAsset line }

/-- The matching test of the dedup loop (`parseWaybackUrls` lines 370–392),
`value` being the already-kept entry and `p` the incoming one: equal host
and path, and then either both query-key sets empty, or equal sizes with
every key of `p` present in `value`. -/
def eqvGo (value p : ParsedURL) : Bool :=
  if value.host = p.host ∧ value.path = p.path then
    if 0 < p.query.length ∧ value.query.length = p.query.length then
      p.query.all (fun k => decide (k ∈ value.query))
    else
      decide (value.query.length = 0 ∧ p.query.length = 0)
  else false

/-- The dedup loop of `parseWaybackUrls` (lines 364–396): keep an entry iff
no already-kept entry matches it. -/
def dedupAcc (eqv : ParsedURL → ParsedURL → Bool) :
    List ParsedURL → List ParsedURL → List ParsedURL
  | acc, [] => acc
  | acc, p :: rest =>
    if acc.any (fun v => eqv v p) then dedupAcc eqv acc rest
    else dedupAcc eqv (acc ++ [p]) rest

/-- Lexicographic `≤` on strings (`sort.Strings` order; byte order and
code-point order agree under UTF-8). -/
def lexLe : List Char → List Char → Bool
  | [], _ => true
  | _ :: _, [] => false
  | a :: as, b :: bs => if a = b then lexLe as bs else decide (a < b)

/-- Sorted insertion for `insertionSort`. -/
def insertLe (x : List Char) : List (List Char) → List (List Char)
  | [] => [x]
  | y :: ys => if lexLe x y then x :: y :: ys else y :: insertLe x ys

/-- `sort.Strings` (the sorted order is unique because `lexLe` is a total
order and equal strings are indistinguishable). -/
def insertionSort : List (List Char) → List (List Char)
  | [] => []
  | x :: xs => insertLe x (insertionSort xs)

/-- The normalization/dedup pipeline of `parseWaybackUrls` (lines 331–401):
sort the corpus, parse and asset-strip each line, deduplicate with first
occurrence winning, and emit the canonical URLs.  (The surrounding file
I/O — reading the corpus and writing the canonical list — is the
collaborator boundary.) -/
def normalizeUrls (lines : List (List Char)) : List (List Char) :=
  (dedupAcc eqvGo [] ((insertionSort lines).map parseClean)).map (fun p => p.url)

/-- Modelled from the spec: §4.4 step 4's equivalence, «two parsed URLs are
equivalent iff they share host and (asset-stripped) path AND their
query-key sets are identical as sets (values ignored; an empty-vs-empty
query set is also equivalent)».  Compared with `eqvGo`, what the source
does. -/
def specEqv (a b : ParsedURL) : Bool :=
  decide (a.host = b.host) && decide (a.path = b.path) &&
    b.query.all (fun k => decide (k ∈ a.query)) &&
    a.query.all (fun k => decide (k ∈ b.query))

/-- Modelled from the spec: the normalization pipeline with the spec's
equivalence substituted for the source's matching test. -/
def specNormalizeUrls (lines : List (List Char)) : List (List Char) :=
  (dedupAcc specEqv [] ((insertionSort lines).map parseClean)).map (fun p => p.url)

/-! ## Theorems -/

/-- Nonnegativity of the request counter is preserved from any nonnegative
start. -/
theorem counter_foldl_nonneg (ops : List CounterOp) :
    ∀ n : Int, 0 ≤ n → 0 ≤ ops.foldl applyCounterOp n := by
  induction ops with
  | nil => intro n h; simpa using h
  | cons op rest ih =>
    intro n h
    refine ih _ ?_
    cases op with
    | inc => simp [applyCounterOp]; omega
    | dec => simp [applyCounterOp]; split <;> omega

/-- C10: The `requestsIssued` counter never becomes negative: starting from
zero, every interleaving of `incrementRequests` (adds one) and
`DecrementRequests` (subtracts one only when the counter is strictly
positive) keeps the counter nonnegative. -/
theorem c10_counter_never_negative (ops : List CounterOp) :
    0 ≤ ops.foldl applyCounterOp 0 :=
  counter_foldl_nonneg ops 0 le_rfl

/-- C5: A candidate on which `plugin.Process` fails forwards its error to
the error stream and the worker continues with the remaining candidates
unchanged; the run's outcome is `ok` (with both streams fully collected)
whenever `Setup` succeeded, and only a `Setup` failure propagates to the
top level. -/
theorem c5_process_error_policy
    (process : BusterTarget → Except (List Char) (List Result))
    (t : BusterTarget) (rest : List BusterTarget) (e : List Char)
    (setupErr : List Char) (cands : List BusterTarget) :
    (process t = .error e →
      workerRun process (t :: rest) =
        ((workerRun process rest).1, e :: (workerRun process rest).2)) ∧
    startRun (.ok ()) process cands = .ok (workerRun process cands) ∧
    startRun (.error setupErr) process cands = .error setupErr := by
  refine ⟨fun h => ?_, rfl, rfl⟩
  simp only [workerRun]
  rw [h]

/-- Concrete `Process` stub for the C5 witness: the candidate `bad` fails,
everything else succeeds with one result. -/
def c5Proc (t : BusterTarget) : Except (List Char) (List Result) :=
  if t.target = str "bad" then .error (str "boom")
  else .ok [{ entity := t.target, status := 200, content := str "ok",
              isEntityURL := false }]

/-- Witness for C5 at a concrete failing candidate. -/
theorem c5_process_error_policy_witness :
    workerRun c5Proc ({ isURL := false, target := str "bad" } :: [{ isURL := false, target := str "good" }]) =
      ((workerRun c5Proc [{ isURL := false, target := str "good" }]).1,
        str "boom" :: (workerRun c5Proc [{ isURL := false, target := str "good" }]).2) ∧
    startRun (.ok ()) c5Proc [{ isURL := false, target := str "good" }] =
      .ok (workerRun c5Proc [{ isURL := false, target := str "good" }]) ∧
    startRun (.error (str "se")) c5Proc [{ isURL := false, target := str "good" }] =
      .error (str "se") := by
  have h := c5_process_error_policy c5Proc { isURL := false, target := str "bad" }
    [{ isURL := false, target := str "good" }] (str "boom") (str "se")
    [{ isURL := false, target := str "good" }]
  exact ⟨h.1 rfl, h.2.1, h.2.2⟩

/-- C7: A non-blank, non-comment word containing `%EXT%` expands into one
candidate per configured extension (every `%EXT%` occurrence replaced)
plus, when the blank-extension option is set, one candidate with the
`.%EXT%` token removed; blank lines and `#`-comment lines produce no
candidates. -/
theorem c7_ext_placeholder_expansion (exts : List (List Char)) (blank : Bool)
    (line : List Char) :
    ((trimSpace line = [] ∨ (str "#").isPrefixOf (trimSpace line) = true) →
      wordScanLine exts blank line = []) ∧
    ((str "#").isPrefixOf (trimSpace line) = false → trimSpace line ≠ [] →
      containsSub (trimSpace line) (str "%EXT%") = true →
      wordScanLine exts blank line =
        (if blank then
          [{ isURL := false, target := replaceAll (trimSpace line) (str ".%EXT%") [] }]
        else []) ++
          exts.map (fun ext =>
            { isURL := false, target := replaceAll (trimSpace line) (str "%EXT%") ext }) ∧
      (wordScanLine exts blank line).length =
        exts.length + (if blank then 1 else 0)) := by
  constructor
  · rintro (h | h) <;> simp [wordScanLine, h]
  · intro h1 h2 h3
    have hlen : 0 < (trimSpace line).length := List.length_pos.mpr h2
    have hexp : wordScanLine exts blank line =
        (if blank then
          [{ isURL := false, target := replaceAll (trimSpace line) (str ".%EXT%") [] }]
        else []) ++
          exts.map (fun ext =>
            { isURL := false, target := replaceAll (trimSpace line) (str "%EXT%") ext }) := by
      simp [wordScanLine, h1, hlen, h3]
    refine ⟨hexp, ?_⟩
    rw [hexp]
    cases blank <;> simp [Nat.add_comm]

/-- Witness for C7: the word `index.%EXT%` with extensions `php`,`html` and
the blank-extension option on yields three candidates, and a comment line
yields none. -/
theorem c7_ext_placeholder_expansion_witness :
    wordScanLine [str "php", str "html"] true (str "index.%EXT%") =
      [{ isURL := false, target := str "index" },
       { isURL := false, target := str "index.php" },
       { isURL := false, target := str "index.html" }] ∧
    (wordScanLine [str "php", str "html"] true (str "index.%EXT%")).length = 3 ∧
    wordScanLine [str "php", str "html"] true (str "#comment") = [] := by
  have h := c7_ext_placeholder_expansion [str "php", str "html"] true (str "index.%EXT%")
  have h2 := (h.2 (by decide) (by decide) (by decide))
  have hc := c7_ext_placeholder_expansion [str "php", str "html"] true (str "#comment")
  refine ⟨?_, ?_, hc.1 (Or.inr (by decide))⟩
  · rw [h2.1]; decide
  · rw [h2.2]; decide

/-- C8 fails as stated: `ResultToString` samples the wall clock and embeds
it in both output lines, so two invocations on the same `Result` with the
same run state (one second apart) return different display lines. -/
theorem c8_counterexample :
    (resultToString {} { url := str "http://t/" } ⟨2020, 1, 2, 3, 4, 5⟩
        { entity := str "admin", status := 200, size := some 5,
          content := str "body", isEntityURL := false }).1 ≠
      (resultToString {} { url := str "http://t/" } ⟨2020, 1, 2, 3, 4, 6⟩
        { entity := str "admin", status := 200, size := some 5,
          content := str "body", isEntityURL := false }).1 := by
  decide

/-- C8 amended: `ResultToString` is a pure function of the `Result`, the
run's wildcard signature/options, and the clock instant sampled during the
call: the returned status is clock-independent, and at equal clock instants
two invocations return identical display and archive lines. -/
theorem c8_pure_given_clock (g : WildcardState) (opts : Options) (r : Result)
    (t t' : TimeStamp) :
    (resultToString g opts t r).2.2 = (resultToString g opts t' r).2.2 ∧
    (t = t' → resultToString g opts t r = resultToString g opts t' r) := by
  exact ⟨rfl, fun h => by rw [h]⟩

/-- Witness for C8 amended at a concrete state, result and instant. -/
theorem c8_pure_given_clock_witness :
    (resultToString {} { url := str "http://t/" } ⟨2020, 1, 2, 3, 4, 5⟩
        { entity := str "admin", status := 200, size := some 5,
          content := str "body", isEntityURL := false }).2.2 =
      (resultToString {} { url := str "http://t/" } ⟨2020, 1, 2, 3, 4, 5⟩
        { entity := str "admin", status := 200, size := some 5,
          content := str "body", isEntityURL := false }).2.2 ∧
    resultToString {} { url := str "http://t/" } ⟨2020, 1, 2, 3, 4, 5⟩
        { entity := str "admin", status := 200, size := some 5,
          content := str "body", isEntityURL := false } =
      resultToString {} { url := str "http://t/" } ⟨2020, 1, 2, 3, 4, 5⟩
        { entity := str "admin", status := 200, size := some 5,
          content := str "body", isEntityURL := false } := by
  have h := c8_pure_given_clock {} { url := str "http://t/" }
    { entity := str "admin", status := 200, size := some 5,
      content := str "body", isEntityURL := false }
    ⟨2020, 1, 2, 3, 4, 5⟩ ⟨2020, 1, 2, 3, 4, 5⟩
  exact ⟨h.1, h.2 rfl⟩

/-- Calibration state for the C1 counterexample: both file probes return
status 200 with titleless bodies of different stripped lengths, the two
directory probes disagree on the status — so the wildcard status 200 is
stored but no discriminator is captured for either scope. -/
def c1State : WildcardState :=
  setupFromResponses (str "http://t/") (str "aaaaaaaaaaaaaaaa") (str "aaaaaaaa")
    (str "bbbbbbbbbbbbbbb/") (str "bbbbbbb/")
    ⟨200, str "a"⟩ ⟨200, str "bc"⟩ ⟨404, str "x"⟩ ⟨500, str "y"⟩

/-- C1 fails as stated: after a calibration that stored wildcard status 200
for the file scope but captured neither the by-title nor the
by-content-length discriminator, a file-like Result with status 200 is NOT
classified a false positive — status-code equality alone never suffices in
`ResultToString`. -/
theorem c1_counterexample :
    c1State.wildcardStatusCode = 200 ∧
    c1State.isWildcardFileByTitle = false ∧
    c1State.isWildcardFileByContentLength = false ∧
    endsWithSlash (str "admin") = false ∧
    classifyFalsePositive c1State (str "http://t/")
      { entity := str "admin", status := 200, content := str "hello",
        isEntityURL := false } = false := by
  decide

/-- C1 amended: when no discriminator was captured for the Result's scope
(neither the by-title nor the by-content-length flag is set for it),
`ResultToString` never classifies the Result as a false positive — in the
no-discriminator case even a Result whose status equals the stored wildcard
status is kept. -/
theorem c1_no_discriminator_never_false_positive (g : WildcardState)
    (baseURL : List Char) (r : Result)
    (h : if endsWithSlash r.entity then
        g.isWildcardDirByTitle = false ∧ g.isWildcardDirByContentLength = false
      else
        g.isWildcardFileByTitle = false ∧ g.isWildcardFileByContentLength = false) :
    classifyFalsePositive g baseURL r = false := by
  by_cases hd : endsWithSlash r.entity = true
  · simp only [hd, if_pos] at h
    simp [classifyFalsePositive, hd, h.1, h.2]
  · simp only [Bool.not_eq_true] at hd
    simp only [hd, Bool.false_eq_true, if_false] at h
    simp [classifyFalsePositive, hd, h.1, h.2]

/-- Witness for C1 amended: the calibration state of the counterexample,
with a directory-like Result this time. -/
theorem c1_no_discriminator_never_false_positive_witness :
    classifyFalsePositive c1State (str "http://t/")
      { entity := str "backup/", status := 200, content := str "hello",
        isEntityURL := false } = false :=
  c1_no_discriminator_never_false_positive c1State (str "http://t/")
    { entity := str "backup/", status := 200, content := str "hello",
      isEntityURL := false } (by decide)

/-- The stored status after the file-scope calibration block. -/
theorem fileCalib_status (uA uB : List Char) (ra rb : ProbeResp)
    (s : WildcardState) :
    (fileCalib uA uB ra rb s).wildcardStatusCode =
      if ra.status = rb.status then ra.status else s.wildcardStatusCode := by
  simp only [fileCalib]
  split <;> (try split) <;> (try split) <;> rfl

/-- The stored status after the directory-scope calibration block. -/
theorem dirCalib_status (uA uB : List Char) (ra rb : ProbeResp)
    (s : WildcardState) :
    (dirCalib uA uB ra rb s).wildcardStatusCode =
      if ra.status = rb.status then ra.status else s.wildcardStatusCode := by
  simp only [dirCalib]
  split <;> (try split) <;> (try split) <;> rfl

/-- The directory-scope calibration block never touches the file-scope
fields. -/
theorem dirCalib_file_fields (uA uB : List Char) (ra rb : ProbeResp)
    (s : WildcardState) :
    (dirCalib uA uB ra rb s).isWildcardFileByTitle = s.isWildcardFileByTitle ∧
    (dirCalib uA uB ra rb s).wildcardFileTitle = s.wildcardFileTitle := by
  refine ⟨?_, ?_⟩ <;>
    (simp only [dirCalib]; split <;> (try split) <;> (try split) <;> rfl)

/-- Agreeing statuses with equal non-empty extracted titles set the
file-scope by-title flag and store the title. -/
theorem fileCalib_title (uA uB : List Char) (ra rb : ProbeResp)
    (s : WildcardState) (h1 : ra.status = rb.status)
    (h2 : extractTitle ra.content ≠ [])
    (h3 : extractTitle ra.content = extractTitle rb.content) :
    (fileCalib uA uB ra rb s).isWildcardFileByTitle = true ∧
    (fileCalib uA uB ra rb s).wildcardFileTitle = extractTitle ra.content := by
  have h23 : extractTitle ra.content ≠ [] ∧
      extractTitle ra.content = extractTitle rb.content := ⟨h2, h3⟩
  simp only [fileCalib]
  rw [if_pos h1, if_pos h23]
  exact ⟨rfl, rfl⟩

/-- Agreeing statuses with equal non-empty extracted titles set the
directory-scope by-title flag and store the title. -/
theorem dirCalib_title (uA uB : List Char) (ra rb : ProbeResp)
    (s : WildcardState) (h1 : ra.status = rb.status)
    (h2 : extractTitle ra.content ≠ [])
    (h3 : extractTitle ra.content = extractTitle rb.content) :
    (dirCalib uA uB ra rb s).isWildcardDirByTitle = true ∧
    (dirCalib uA uB ra rb s).wildcardDirTitle = extractTitle ra.content := by
  have h23 : extractTitle ra.content ≠ [] ∧
      extractTitle ra.content = extractTitle rb.content := ⟨h2, h3⟩
  simp only [dirCalib]
  rw [if_pos h1, if_pos h23]
  exact ⟨rfl, rfl⟩

/-- Calibration state for the C2 counterexample: the file scope agrees on
status 200 with equal non-empty titles `t`, the directory scope agrees on
status 404 — the directory scope's write to the single `WildcardStatusCode`
field wins. -/
def c2State : WildcardState :=
  setupFromResponses (str "http://t/") (str "aaaaaaaaaaaaaaaa") (str "aaaaaaaa")
    (str "bbbbbbbbbbbbbbb/") (str "bbbbbbb/")
    ⟨200, str "<title>t</title>"⟩ ⟨200, str "<title>t</title>"⟩
    ⟨404, str "q"⟩ ⟨404, str "q"⟩

/-- The file-like Result of the C2 counterexample: status 200 (the file
scope's agreed status) and the stored wildcard title. -/
def c2Result : Result :=
  { entity := str "x", status := 200, content := str "<title>t</title>",
    isEntityURL := false }

/-- C2 fails as stated: after a calibration in which the file scope agreed
on 200 (wildcard-by-title) and the directory scope on 404, the single
stored status is 404, and a file-like Result with status 200 and the
stored title — a false positive under the claim's per-scope comparison —
is NOT classified a false positive by the code, which compares every
Result against the one stored value. -/
theorem c2_counterexample :
    c2State.isWildcardFileByTitle = true ∧
    c2State.wildcardFileTitle = str "t" ∧
    c2State.wildcardStatusCode = 404 ∧
    specClassifyPerScope (str "http://t/") (str "aaaaaaaaaaaaaaaa") (str "aaaaaaaa")
      (str "bbbbbbbbbbbbbbb/") (str "bbbbbbb/")
      ⟨200, str "<title>t</title>"⟩ ⟨200, str "<title>t</title>"⟩
      ⟨404, str "q"⟩ ⟨404, str "q"⟩ (str "http://t/") c2Result = true ∧
    classifyFalsePositive c2State (str "http://t/") c2Result = false := by
  decide

/-- C2 amended: the calibration status code is stored in a single field
shared by both scopes; each agreeing scope overwrites it (file scope first,
then directory scope), so the directory scope's status wins whenever it
agrees, the file scope's only otherwise, and `0` remains when neither
agrees.  At classification time every Result — file-like or directory-like —
is compared against this one stored value: a Result whose status differs
from it is never classified a false positive, even when its status equals
the agreed status of its own scope. -/
theorem c2_single_stored_status (base tF16 tF8 tD16 tD8 : List Char)
    (rF16 rF8 rD16 rD8 : ProbeResp) (baseURL : List Char) (r : Result) :
    (setupFromResponses base tF16 tF8 tD16 tD8 rF16 rF8 rD16 rD8).wildcardStatusCode =
      (if rD16.status = rD8.status then rD16.status
       else if rF16.status = rF8.status then rF16.status else 0) ∧
    (r.status ≠ (setupFromResponses base tF16 tF8 tD16 tD8 rF16 rF8 rD16 rD8).wildcardStatusCode →
      classifyFalsePositive (setupFromResponses base tF16 tF8 tD16 tD8 rF16 rF8 rD16 rD8)
        baseURL r = false) := by
  constructor
  · show (dirCalib _ _ _ _ (fileCalib _ _ _ _ _)).wildcardStatusCode = _
    rw [dirCalib_status, fileCalib_status]
  · intro h
    simp [classifyFalsePositive, h]

/-- Witness for C2 amended at the counterexample's calibration inputs. -/
theorem c2_single_stored_status_witness :
    c2State.wildcardStatusCode = (if (404 : Int) = 404 then (404 : Int)
      else if (200 : Int) = 200 then (200 : Int) else 0) ∧
    classifyFalsePositive c2State (str "http://t/") c2Result = false := by
  have h := c2_single_stored_status (str "http://t/") (str "aaaaaaaaaaaaaaaa")
    (str "aaaaaaaa") (str "bbbbbbbbbbbbbbb/") (str "bbbbbbb/")
    ⟨200, str "<title>t</title>"⟩ ⟨200, str "<title>t</title>"⟩
    ⟨404, str "q"⟩ ⟨404, str "q"⟩ (str "http://t/") c2Result
  exact ⟨h.1, h.2 (by decide)⟩

/-- If the file scope's probes agree on the status and extract equal
non-empty titles, `Setup` flags the file scope wildcard-by-title and stores
the title (the later directory-scope writes touch neither field). -/
theorem setup_file_by_title (base tF16 tF8 tD16 tD8 : List Char)
    (rF16 rF8 rD16 rD8 : ProbeResp)
    (h1 : rF16.status = rF8.status)
    (h2 : extractTitle rF16.content ≠ [])
    (h3 : extractTitle rF16.content = extractTitle rF8.content) :
    (setupFromResponses base tF16 tF8 tD16 tD8 rF16 rF8 rD16 rD8).isWildcardFileByTitle = true ∧
    (setupFromResponses base tF16 tF8 tD16 tD8 rF16 rF8 rD16 rD8).wildcardFileTitle =
      extractTitle rF16.content := by
  obtain ⟨ha, hb⟩ := fileCalib_title (base ++ tF16) (base ++ tF8) rF16 rF8
    { wildcardStatusCode := 0 } h1 h2 h3
  obtain ⟨hp, hq⟩ := dirCalib_file_fields (base ++ tD16) (base ++ tD8) rD16 rD8
    (fileCalib (base ++ tF16) (base ++ tF8) rF16 rF8 { wildcardStatusCode := 0 })
  exact ⟨hp.trans ha, hq.trans hb⟩

/-- If the directory scope's probes agree on the status and extract equal
non-empty titles, `Setup` flags the directory scope wildcard-by-title and
stores the title. -/
theorem setup_dir_by_title (base tF16 tF8 tD16 tD8 : List Char)
    (rF16 rF8 rD16 rD8 : ProbeResp)
    (h1 : rD16.status = rD8.status)
    (h2 : extractTitle rD16.content ≠ [])
    (h3 : extractTitle rD16.content = extractTitle rD8.content) :
    (setupFromResponses base tF16 tF8 tD16 tD8 rF16 rF8 rD16 rD8).isWildcardDirByTitle = true ∧
    (setupFromResponses base tF16 tF8 tD16 tD8 rF16 rF8 rD16 rD8).wildcardDirTitle =
      extractTitle rD16.content := by
  exact dirCalib_title (base ++ tD16) (base ++ tD8) rD16 rD8
    (fileCalib (base ++ tF16) (base ++ tF8) rF16 rF8 { wildcardStatusCode := 0 })
    h1 h2 h3

/-- A file-like Result with the stored status whose extracted title equals
the stored file title is classified a false positive. -/
theorem classify_file_title_pos (g : WildcardState) (baseURL : List Char)
    (r : Result) (hf : g.isWildcardFileByTitle = true)
    (hd : endsWithSlash r.entity = false)
    (hs : r.status = g.wildcardStatusCode)
    (ht : extractTitleOpt r.content = some g.wildcardFileTitle) :
    classifyFalsePositive g baseURL r = true := by
  simp [classifyFalsePositive, hs, hd, hf, ht]

/-- A file-like Result whose extracted title differs from the stored file
title is not classified a false positive when the file scope is flagged
by-title. -/
theorem classify_file_title_neg (g : WildcardState) (baseURL : List Char)
    (r : Result) (hf : g.isWildcardFileByTitle = true)
    (hd : endsWithSlash r.entity = false)
    (ht : extractTitle r.content ≠ g.wildcardFileTitle) :
    classifyFalsePositive g baseURL r = false := by
  rcases h : extractTitleOpt r.content with _ | t
  · simp [classifyFalsePositive, hd, hf, h]
  · have hne : ¬(t = g.wildcardFileTitle) := by
      intro e
      exact ht (by simp [extractTitle, h, e])
    simp [classifyFalsePositive, hd, hf, h, hne]

/-- Directory analogue of `classify_file_title_pos`. -/
theorem classify_dir_title_pos (g : WildcardState) (baseURL : List Char)
    (r : Result) (hf : g.isWildcardDirByTitle = true)
    (hd : endsWithSlash r.entity = true)
    (hs : r.status = g.wildcardStatusCode)
    (ht : extractTitleOpt r.content = some g.wildcardDirTitle) :
    classifyFalsePositive g baseURL r = true := by
  simp [classifyFalsePositive, hs, hd, hf, ht]

/-- Directory analogue of `classify_file_title_neg`. -/
theorem classify_dir_title_neg (g : WildcardState) (baseURL : List Char)
    (r : Result) (hf : g.isWildcardDirByTitle = true)
    (hd : endsWithSlash r.entity = true)
    (ht : extractTitle r.content ≠ g.wildcardDirTitle) :
    classifyFalsePositive g baseURL r = false := by
  rcases h : extractTitleOpt r.content with _ | t
  · simp [classifyFalsePositive, hd, hf, h]
  · have hne : ¬(t = g.wildcardDirTitle) := by
      intro e
      exact ht (by simp [extractTitle, h, e])
    simp [classifyFalsePositive, hd, hf, h, hne]

/-- C3 fails as stated: the source's title regex is case-sensitive (and its
leading greedy `.*` selects the last title), not the «first match,
case-insensitive» extraction the claim describes.  With both file probes
answering status 200 and body `<TITLE>Not Found</TITLE>`, the
spec-described extraction yields the equal non-empty titles `Not Found`,
yet `Setup` does not flag the file scope wildcard-by-title (the code's
extraction finds no title at all and falls through to content length). -/
theorem c3_counterexample :
    specExtractTitle (str "<TITLE>Not Found</TITLE>") = some (str "Not Found") ∧
    str "Not Found" ≠ ([] : List Char) ∧
    extractTitleOpt (str "<TITLE>Not Found</TITLE>") = none ∧
    (setupFromResponses (str "http://t/") (str "aaaaaaaaaaaaaaaa") (str "aaaaaaaa")
      (str "bbbbbbbbbbbbbbb/") (str "bbbbbbb/")
      ⟨200, str "<TITLE>Not Found</TITLE>"⟩ ⟨200, str "<TITLE>Not Found</TITLE>"⟩
      ⟨404, str "x"⟩ ⟨500, str "y"⟩).isWildcardFileByTitle = false := by
  decide

/-- C3 amended: with titles extracted as the source actually extracts them
(case-sensitive `(?s).*<title>(.*)</title>.*`, trimmed), the behavioral
part of the claim holds for each scope: equal probe statuses with equal
non-empty extracted titles flag that scope wildcard-by-title and store the
title; thereafter a Result in that scope whose status equals the stored
wildcard status and whose extracted title equals the stored title is
classified a false positive, while one with the same status but a
different extracted title is not. -/
theorem c3_title_wildcard (base tF16 tF8 tD16 tD8 : List Char)
    (rF16 rF8 rD16 rD8 : ProbeResp) (baseURL : List Char) (r r' : Result)
    (st : WildcardState)
    (hst : st = setupFromResponses base tF16 tF8 tD16 tD8 rF16 rF8 rD16 rD8) :
    (rF16.status = rF8.status → extractTitle rF16.content ≠ [] →
      extractTitle rF16.content = extractTitle rF8.content →
      st.isWildcardFileByTitle = true ∧
      st.wildcardFileTitle = extractTitle rF16.content ∧
      (endsWithSlash r.entity = false → r.status = st.wildcardStatusCode →
        extractTitleOpt r.content = some st.wildcardFileTitle →
        classifyFalsePositive st baseURL r = true) ∧
      (endsWithSlash r'.entity = false → r'.status = st.wildcardStatusCode →
        extractTitle r'.content ≠ st.wildcardFileTitle →
        classifyFalsePositive st baseURL r' = false)) ∧
    (rD16.status = rD8.status → extractTitle rD16.content ≠ [] →
      extractTitle rD16.content = extractTitle rD8.content →
      st.isWildcardDirByTitle = true ∧
      st.wildcardDirTitle = extractTitle rD16.content ∧
      (endsWithSlash r.entity = true → r.status = st.wildcardStatusCode →
        extractTitleOpt r.content = some st.wildcardDirTitle →
        classifyFalsePositive st baseURL r = true) ∧
      (endsWithSlash r'.entity = true → r'.status = st.wildcardStatusCode →
        extractTitle r'.content ≠ st.wildcardDirTitle →
        classifyFalsePositive st baseURL r' = false)) := by
  subst hst
  constructor
  · intro h1 h2 h3
    obtain ⟨hf, htitle⟩ := setup_file_by_title base tF16 tF8 tD16 tD8 rF16 rF8 rD16 rD8 h1 h2 h3
    refine ⟨hf, htitle, ?_, ?_⟩
    · intro hd hs ht
      exact classify_file_title_pos _ baseURL r hf hd hs ht
    · intro hd hs ht
      exact classify_file_title_neg _ baseURL r' hf hd ht
  · intro h1 h2 h3
    obtain ⟨hf, htitle⟩ := setup_dir_by_title base tF16 tF8 tD16 tD8 rF16 rF8 rD16 rD8 h1 h2 h3
    refine ⟨hf, htitle, ?_, ?_⟩
    · intro hd hs ht
      exact classify_dir_title_pos _ baseURL r hf hd hs ht
    · intro hd hs ht
      exact classify_dir_title_neg _ baseURL r' hf hd ht

/-- Calibration state for the C3 witness: both file probes answer 200 with
a lowercase `<title>Not Found</title>` body; the directory probes
disagree. -/
def c3State : WildcardState :=
  setupFromResponses (str "http://t/") (str "aaaaaaaaaaaaaaaa") (str "aaaaaaaa")
    (str "bbbbbbbbbbbbbbb/") (str "bbbbbbb/")
    ⟨200, str "<title>Not Found</title>"⟩ ⟨200, str "<title>Not Found</title>"⟩
    ⟨404, str "x"⟩ ⟨500, str "y"⟩

/-- Witness for C3 amended: the flag and title are stored, a status-200
Result with title `Not Found` is a false positive, one with title `Other`
is not. -/
theorem c3_title_wildcard_witness :
    c3State.isWildcardFileByTitle = true ∧
    c3State.wildcardFileTitle = str "Not Found" ∧
    classifyFalsePositive c3State (str "http://t/")
      { entity := str "x", status := 200,
        content := str "<title>Not Found</title>", isEntityURL := false } = true ∧
    classifyFalsePositive c3State (str "http://t/")
      { entity := str "y", status := 200,
        content := str "<title>Other</title>", isEntityURL := false } = false := by
  have h := (c3_title_wildcard (str "http://t/") (str "aaaaaaaaaaaaaaaa")
    (str "aaaaaaaa") (str "bbbbbbbbbbbbbbb/") (str "bbbbbbb/")
    ⟨200, str "<title>Not Found</title>"⟩ ⟨200, str "<title>Not Found</title>"⟩
    ⟨404, str "x"⟩ ⟨500, str "y"⟩ (str "http://t/")
    { entity := str "x", status := 200,
      content := str "<title>Not Found</title>", isEntityURL := false }
    { entity := str "y", status := 200,
      content := str "<title>Other</title>", isEntityURL := false }
    c3State rfl).1 (by decide) (by decide) (by decide)
  refine ⟨h.1, ?_, ?_, ?_⟩
  · rw [h.2.1]; decide
  · exact h.2.2.1 (by decide) (by decide) (by decide)
  · exact h.2.2.2 (by decide) (by decide) (by decide)

/-- A blank line (after trimming) enqueues nothing. -/
theorem wordScanLine_nil (exts : List (List Char)) (blank : Bool)
    (l : List Char) (hb : trimSpace l = []) :
    wordScanLine exts blank l = [] := by
  simp [wordScanLine, hb]

/-- A blank line contributes nothing to `requestsExpected` either. -/
theorem getWordlistExpected_cons_blank (exts : List (List Char)) (blank : Bool)
    (l : List Char) (rest : List (List Char)) (hb : trimSpace l = []) :
    getWordlistExpected exts blank (l :: rest) = getWordlistExpected exts blank rest := by
  simp [getWordlistExpected, List.filter_cons, hb]

/-- C9: for a wordlist none of whose whitespace-trimmed lines begins with
`#`, the `requestsExpected` value computed by `getWordlist` equals the
number of `BusterTarget` candidates enqueued by `Start`'s wordlist scan
when no cancellation occurs. -/
theorem c9_expected_matches_enqueued (exts : List (List Char)) (blank : Bool)
    (lines : List (List Char))
    (h : ∀ l ∈ lines, (str "#").isPrefixOf (trimSpace l) = false) :
    getWordlistExpected exts blank lines =
      ((startWordlistTargets exts blank lines).length : Int) := by
  induction lines with
  | nil => cases blank <;> simp [getWordlistExpected, startWordlistTargets]
  | cons l rest ih =>
    have hl : (str "#").isPrefixOf (trimSpace l) = false := h l (by simp)
    have ihr := ih (fun x hx => h x (by simp [hx]))
    by_cases hb : trimSpace l = []
    · rw [getWordlistExpected_cons_blank exts blank l rest hb]
      simp only [startWordlistTargets, wordScanLine_nil exts blank l hb,
        List.nil_append]
      exact ihr
    · have hlen : 0 < (trimSpace l).length := List.length_pos.mpr hb
      by_cases he : containsSub (trimSpace l) (str "%EXT%") = true
      · have h1 : ((wordScanLine exts blank l).length : Int) =
            exts.length + (if blank then 1 else 0) := by
          simp [wordScanLine, hl, hlen, he]
          cases blank <;> simp
          ring
        have h2 : getWordlistExpected exts blank (l :: rest) =
            getWordlistExpected exts blank rest + exts.length +
              (if blank then (1 : Int) else 0) := by
          simp [getWordlistExpected, List.filter_cons, hb, he]
          cases blank <;> simp <;> ring
        rw [h2, ihr]
        simp only [startWordlistTargets, List.length_append]
        push_cast
        rw [h1]
        ring
      · have h1 : ((wordScanLine exts blank l).length : Int) = 1 := by
          simp [wordScanLine, hl, hlen, he]
        have h2 : getWordlistExpected exts blank (l :: rest) =
            getWordlistExpected exts blank rest + 1 := by
          simp [getWordlistExpected, List.filter_cons, hb, he]
          cases blank <;> simp <;> ring
        rw [h2, ihr]
        simp only [startWordlistTargets, List.length_append]
        push_cast
        rw [h1]
        ring

/-- Witness for C9: wordlist `["admin", " ", "index.%EXT%"]` with
extensions `php`,`html` and the blank-extension option off: three requests
expected, three candidates enqueued. -/
theorem c9_expected_matches_enqueued_witness :
    getWordlistExpected [str "php", str "html"] false
        [str "admin", str " ", str "index.%EXT%"] =
      ((startWordlistTargets [str "php", str "html"] false
        [str "admin", str " ", str "index.%EXT%"]).length : Int) :=
  c9_expected_matches_enqueued [str "php", str "html"] false
    [str "admin", str " ", str "index.%EXT%"] (by decide)

/-- Soundness of key deduplication: every kept key came from the input. -/
theorem mem_dedupKeysAux : ∀ (fuel : Nat) (l : List (List Char)) (x : List Char),
    x ∈ dedupKeysAux fuel l → x ∈ l := by
  intro fuel
  induction fuel with
  | zero => intro l x hx; simp [dedupKeysAux] at hx
  | succ n ih =>
    intro l x hx
    cases l with
    | nil => simp [dedupKeysAux] at hx
    | cons k rest =>
      simp only [dedupKeysAux, List.mem_cons] at hx
      rcases hx with h | h
      · exact h ▸ List.mem_cons_self k rest
      · exact List.mem_cons_of_mem k (List.mem_filter.1 (ih _ x h)).1

/-- The deduplicated key list has no duplicates (it models a map's key
set). -/
theorem nodup_dedupKeysAux : ∀ (fuel : Nat) (l : List (List Char)),
    (dedupKeysAux fuel l).Nodup := by
  intro fuel
  induction fuel with
  | zero => intro l; simp [dedupKeysAux]
  | succ n ih =>
    intro l
    cases l with
    | nil => simp [dedupKeysAux]
    | cons k rest =>
      simp only [dedupKeysAux]
      refine List.nodup_cons.mpr ⟨?_, ih _⟩
      intro hk
      have h2 := List.mem_filter.1 (mem_dedupKeysAux n _ k hk)
      simp at h2

/-- The key set of a parsed query has no duplicates. -/
theorem nodup_queryKeys (q : List Char) : (queryKeys q).Nodup := by
  simp only [queryKeys]
  exact nodup_dedupKeysAux _ _

/-- Propositional reading of the source's matching test. -/
theorem eqvGo_iff (a b : ParsedURL) :
    eqvGo a b = true ↔ (a.host = b.host ∧ a.path = b.path) ∧
      ((0 < b.query.length ∧ a.query.length = b.query.length ∧
          ∀ k ∈ b.query, k ∈ a.query) ∨
        (¬(0 < b.query.length ∧ a.query.length = b.query.length) ∧
          a.query.length = 0 ∧ b.query.length = 0)) := by
  by_cases h1 : a.host = b.host ∧ a.path = b.path
  · by_cases h2 : 0 < b.query.length ∧ a.query.length = b.query.length
    · simp [eqvGo, h1, h2, List.all_eq_true]
    · simp only [eqvGo, if_pos h1, if_neg h2, decide_eq_true_eq]
      constructor
      · intro h
        exact ⟨h1, Or.inr ⟨h2, h⟩⟩
      · rintro ⟨_, ⟨hpos, hlen, _⟩ | h⟩
        · exact absurd ⟨hpos, hlen⟩ h2
        · exact h.2
  · simp [eqvGo, h1]

/-- On key sets without duplicates — which is what the parser produces —
the source's size-plus-containment test coincides with the spec's
set-equality test. -/
theorem eqvGo_eq_specEqv (a b : ParsedURL) (ha : a.query.Nodup)
    (hb : b.query.Nodup) : eqvGo a b = specEqv a b := by
  rw [Bool.eq_iff_iff, eqvGo_iff]
  simp only [specEqv, Bool.and_eq_true, decide_eq_true_eq, List.all_eq_true]
  constructor
  · rintro ⟨⟨hh, hp⟩, hq⟩
    rcases hq with ⟨hpos, hlen, hsub⟩ | ⟨hcond, ha0, hb0⟩
    · have hsp := List.subperm_of_subset hb (fun k hk => hsub k hk)
      have hperm := hsp.perm_of_length_le (le_of_eq hlen)
      exact ⟨⟨⟨hh, hp⟩, fun k hk => hsub k hk⟩, fun k hk => hperm.symm.subset hk⟩
    · have hb' : b.query = [] := List.length_eq_zero.1 hb0
      have ha' : a.query = [] := List.length_eq_zero.1 ha0
      refine ⟨⟨⟨hh, hp⟩, ?_⟩, ?_⟩
      · simp [hb']
      · simp [ha']
  · rintro ⟨⟨⟨hh, hp⟩, hba⟩, hab⟩
    refine ⟨⟨hh, hp⟩, ?_⟩
    by_cases h0 : b.query.length = 0
    · have hb' : b.query = [] := List.length_eq_zero.1 h0
      have ha' : a.query = [] := by
        cases hq : a.query with
        | nil => rfl
        | cons x xs =>
          have hx : x ∈ a.query := by rw [hq]; exact List.mem_cons_self x xs
          have hmem := hab x hx
          rw [hb'] at hmem
          simp at hmem
      refine Or.inr ⟨by simp [h0], by simp [ha'], h0⟩
    · have hle1 := (List.subperm_of_subset ha (fun k hk => hab k hk)).length_le
      have hle2 := (List.subperm_of_subset hb (fun k hk => hba k hk)).length_le
      exact Or.inl ⟨Nat.pos_of_ne_zero h0, Nat.le_antisymm hle1 hle2, hba⟩

/-- Pointwise agreement of the matching tests lifts to the `any` scan over
the kept entries. -/
theorem any_eqvGo_eq (acc : List ParsedURL) (p : ParsedURL)
    (hacc : ∀ v ∈ acc, v.query.Nodup) (hp : p.query.Nodup) :
    acc.any (fun v => eqvGo v p) = acc.any (fun v => specEqv v p) := by
  induction acc with
  | nil => rfl
  | cons v rest ih =>
    simp only [List.any_cons]
    rw [eqvGo_eq_specEqv v p (hacc v (by simp)) hp,
      ih (fun x hx => hacc x (by simp [hx]))]

/-- The dedup loop run with the source's matching test equals the loop run
with the spec's equivalence, on parser-produced entries. -/
theorem dedupAcc_eqv_spec : ∀ (L acc : List ParsedURL),
    (∀ q ∈ L, q.query.Nodup) → (∀ q ∈ acc, q.query.Nodup) →
    dedupAcc eqvGo acc L = dedupAcc specEqv acc L := by
  intro L
  induction L with
  | nil => intro acc _ _; rfl
  | cons p rest ih =>
    intro acc hL hacc
    have hp : p.query.Nodup := hL p (by simp)
    have hrest : ∀ q ∈ rest, q.query.Nodup := fun q hq => hL q (by simp [hq])
    simp only [dedupAcc]
    rw [any_eqvGo_eq acc p hacc hp]
    split
    · exact ih acc hrest hacc
    · refine ih (acc ++ [p]) hrest (fun q hq => ?_)
      rcases List.mem_append.1 hq with h | h
      · exact hacc q h
      · simp at h; subst h; exact hp

/-- C4: the normalization pipeline deduplicates the sorted corpus exactly
by the spec's equivalence — equal host, equal asset-stripped path, and
identical query-key sets (values ignored, empty equals empty) — with the
first occurrence in sorted order winning; on the corpus
`["http://h/a?x=1","http://h/a?x=2"]` exactly one canonical URL for host
`h`, path `a` survives, while `["http://h/a?x=1","http://h/a?x=1&y=2"]`
keeps both entries because the key sets differ. -/
theorem c4_dedup_by_spec_equivalence :
    (∀ lines : List (List Char), normalizeUrls lines = specNormalizeUrls lines) ∧
    normalizeUrls [str "http://h/a?x=1", str "http://h/a?x=2"] =
      [str "http://h/a?x=1"] ∧
    normalizeUrls [str "http://h/a?x=1", str "http://h/a?x=1&y=2"] =
      [str "http://h/a?x=1", str "http://h/a?x=1&y=2"] := by
  refine ⟨fun lines => ?_, by decide, by decide⟩
  simp only [normalizeUrls, specNormalizeUrls]
  congr 1
  apply dedupAcc_eqv_spec
  · intro q hq
    rcases List.mem_map.1 hq with ⟨l, _, rfl⟩
    exact nodup_queryKeys _
  · intro q hq
    exact absurd hq (List.not_mem_nil q)

set_option linter.deprecated false

/-- Specification of `findFrom`: a hit satisfies the predicate, lies in the
scanned window, and is the first such index. -/
theorem findFrom_spec (p : Nat → Bool) :
    ∀ (fuel i r : Nat), findFrom p i fuel = some r →
      p r = true ∧ i ≤ r ∧ r < i + fuel ∧ ∀ j, i ≤ j → j < r → p j = false := by
  intro fuel
  induction fuel with
  | zero => intro i r h; simp [findFrom] at h
  | succ n ih =>
    intro i r h
    simp only [findFrom] at h
    by_cases hp : p i = true
    · rw [if_pos hp] at h
      cases h
      exact ⟨hp, le_rfl, by omega, fun j h1 h2 => absurd h1 (by omega)⟩
    · rw [if_neg hp] at h
      obtain ⟨h1, h2, h3, h4⟩ := ih (i + 1) r h
      refine ⟨h1, by omega, by omega, fun j hj1 hj2 => ?_⟩
      by_cases hji : j = i
      · subst hji; exact Bool.not_eq_true _ ▸ (by simpa using hp)
      · exact h4 j (by omega) hj2

/-- A case-insensitive prefix of a truncation is a prefix of the full
list. -/
theorem ciPref_mono (e : List Char) :
    ∀ (l : List Char) (n : Nat), ciPref e (l.take n) = true → ciPref e l = true := by
  induction e with
  | nil => intro l n _; rfl
  | cons a as ih =>
    intro l n h
    cases l with
    | nil => simp [ciPref] at h
    | cons b bs =>
      cases n with
      | zero => simp [ciPref] at h
      | succ m =>
        simp only [List.take_succ_cons, ciPref, Bool.and_eq_true] at h ⊢
        exact ⟨h.1, ih bs m h.2⟩

/-- A qualifying `.`‑extension inside a prefix of `s` is one in `s`
itself. -/
theorem dotExtAt_of_take (s : List Char) (n j : Nat)
    (h : dotExtAt (s.take n) j = true) :
    dotExtAt s j = true ∧ j < n ∧ j < s.length := by
  unfold dotExtAt at h
  rw [Bool.and_eq_true] at h
  obtain ⟨hdot0, hext⟩ := h
  have hdot : (s.take n).get? j = some '.' := of_decide_eq_true hdot0
  have hlt : j < (s.take n).length := by
    rcases List.get?_eq_some.1 hdot with ⟨hl, _⟩
    exact hl
  have hjn : j < n := by
    rw [List.length_take] at hlt
    omega
  have hjs : j < s.length := by
    rw [List.length_take] at hlt
    omega
  have hdot' : s.get? j = some '.' := by
    rw [← List.get?_take hjn]
    exact hdot
  have hext' : assetExts.any (fun e => ciPref e (s.drop (j + 1))) = true := by
    rw [List.any_eq_true] at hext ⊢
    obtain ⟨e, he, hpref⟩ := hext
    refine ⟨e, he, ?_⟩
    rw [List.drop_take] at hpref
    exact ciPref_mono e _ _ hpref
  refine ⟨?_, hjn, hjs⟩
  unfold dotExtAt
  rw [Bool.and_eq_true]
  exact ⟨decide_eq_true hdot', hext'⟩

/-- An asset-regex match inside a prefix of `s` is a match in `s` itself,
starting before the truncation point. -/
theorem canMatchAt_of_take (s : List Char) (n i : Nat)
    (h : canMatchAt (s.take n) i = true) : canMatchAt s i = true ∧ i < n := by
  simp only [canMatchAt, List.any_eq_true, List.mem_range] at h
  obtain ⟨j, hjmem, hj⟩ := h
  simp only [Bool.and_eq_true, decide_eq_true_eq] at hj
  obtain ⟨⟨hij, hrun⟩, hdot⟩ := hj
  obtain ⟨hdot', hjn, hjs⟩ := dotExtAt_of_take s n j hdot
  have hrun' : ((s.drop i).take (j - i)).all (fun c => ¬(c = '/')) = true := by
    rw [List.drop_take] at hrun
    rw [List.take_take] at hrun
    rwa [min_eq_left (by omega)] at hrun
  constructor
  · simp only [canMatchAt, List.any_eq_true, List.mem_range]
    refine ⟨j, by omega, ?_⟩
    simp only [Bool.and_eq_true, decide_eq_true_eq]
    exact ⟨⟨hij, hrun'⟩, hdot'⟩
  · omega

/-- Asset stripping is idempotent: the prefix kept by the leftmost match
contains no further match. -/
theorem stripAsset_idem (s : List Char) :
    stripAsset (stripAsset s) = stripAsset s := by
  cases h : firstMatchIdx s with
  | none => simp [stripAsset, h]
  | some i =>
    simp only [stripAsset, h]
    cases h2 : firstMatchIdx (s.take i) with
    | none => rfl
    | some r =>
      exfalso
      obtain ⟨hr, _, _, _⟩ := findFrom_spec (canMatchAt (s.take i)) (s.take i).length 0 r h2
      obtain ⟨hcan, hri⟩ := canMatchAt_of_take s i r hr
      obtain ⟨_, _, _, hmin⟩ := findFrom_spec (canMatchAt s) s.length 0 i h
      exact absurd hcan (by simp [hmin r (by omega) hri])

/-- Sorted insertion preserves membership. -/
theorem mem_insertLe (x a : List Char) :
    ∀ l : List (List Char), x ∈ insertLe a l ↔ x = a ∨ x ∈ l := by
  intro l
  induction l with
  | nil => simp [insertLe]
  | cons y ys ih =>
    simp only [insertLe]
    split
    · simp
    · simp only [List.mem_cons, ih]
      tauto

/-- Sorting preserves membership. -/
theorem mem_insertionSort (x : List Char) :
    ∀ l : List (List Char), x ∈ insertionSort l ↔ x ∈ l := by
  intro l
  induction l with
  | nil => simp [insertionSort]
  | cons y ys ih =>
    simp only [insertionSort, mem_insertLe, ih, List.mem_cons]

/-- Every entry kept by the dedup loop came from its accumulator or its
input. -/
theorem dedupAcc_mem (eqv : ParsedURL → ParsedURL → Bool) :
    ∀ (L acc : List ParsedURL) (q : ParsedURL),
      q ∈ dedupAcc eqv acc L → q ∈ acc ∨ q ∈ L := by
  intro L
  induction L with
  | nil => intro acc q h; exact Or.inl h
  | cons p rest ih =>
    intro acc q h
    simp only [dedupAcc] at h
    split at h
    · rcases ih acc q h with h' | h'
      · exact Or.inl h'
      · exact Or.inr (List.mem_cons_of_mem p h')
    · rcases ih (acc ++ [p]) q h with h' | h'
      · rcases List.mem_append.1 h' with h'' | h''
        · exact Or.inl h''
        · simp at h''
          exact Or.inr (h'' ▸ List.mem_cons_self p rest)
      · exact Or.inr (List.mem_cons_of_mem p h')

/-- Every canonical URL emitted by the pipeline is the asset-stripped form
of some corpus line. -/
theorem mem_normalizeUrls (x : List (List Char)) (s : List Char)
    (h : s ∈ normalizeUrls x) : ∃ l ∈ x, s = stripAsset l := by
  simp only [normalizeUrls, List.mem_map] at h
  obtain ⟨q, hq, hurl⟩ := h
  rcases dedupAcc_mem eqvGo _ _ q hq with h' | h'
  · exact absurd h' (List.not_mem_nil q)
  · rcases List.mem_map.1 h' with ⟨l, hl, rfl⟩
    exact ⟨l, (mem_insertionSort l x).1 hl, hurl.symm⟩

/-- Every output of the pipeline is a fixed point of asset stripping. -/
theorem normalizeUrls_fixpoint (x : List (List Char)) (s : List Char)
    (h : s ∈ normalizeUrls x) : stripAsset s = s := by
  obtain ⟨l, _, rfl⟩ := mem_normalizeUrls x s h
  exact stripAsset_idem l

/-- C6 fails as stated: the pipeline is not idempotent as a set.  On the
corpus `["HTTP://h/a/", "http://h/a/x.jpg?k=1"]` the first pass keeps both
lines (their query-key sets `{}` and `{k}` differ) and emits the canonical
URLs `HTTP://h/a/` and `http://h/a/` (asset stripping ate `x.jpg?k=1`); the
second pass parses those two distinct strings to equal host, path and key
set, so it drops `http://h/a/` — an element of `Normalize(x)` missing from
`Normalize(Normalize(x))`. -/
theorem c6_counterexample :
    str "http://h/a/" ∈ normalizeUrls [str "HTTP://h/a/", str "http://h/a/x.jpg?k=1"] ∧
    str "http://h/a/" ∉
      normalizeUrls (normalizeUrls [str "HTTP://h/a/", str "http://h/a/x.jpg?k=1"]) := by
  decide

/-- C6 amended: one inclusion of the idempotence claim does hold — a second
normalization pass never introduces a canonical URL that the first pass did
not already emit (every second-pass output is the asset-stripped form of a
first-pass output, and first-pass outputs are fixed points of stripping);
the reverse inclusion fails, since distinct surviving strings can become
equivalent after stripping and a second pass then drops one of them. -/
theorem c6_second_pass_no_new_urls (x : List (List Char)) (s : List Char)
    (h : s ∈ normalizeUrls (normalizeUrls x)) : s ∈ normalizeUrls x := by
  obtain ⟨t, ht, rfl⟩ := mem_normalizeUrls (normalizeUrls x) s h
  rwa [normalizeUrls_fixpoint x t ht]

/-- Witness for C6 amended at a one-line corpus. -/
theorem c6_second_pass_no_new_urls_witness :
    str "http://h/a" ∈ normalizeUrls [str "http://h/a"] :=
  c6_second_pass_no_new_urls [str "http://h/a"] (str "http://h/a") (by decide)
